import Mathlib

/-!
Shallow embedding of the bot_support repository (Python) and proofs about it.

Source files embedded here:
* `src/services/scheduler.py`  — `SchedulerService` (jobs, `start`, `stop`, `_run_scheduler`)
* `src/services/feedback.py`   — `FeedbackService.check_cooldown`
* `src/locales/__init__.py`    — `get_text` and locale resolution
* `src/handlers/user.py`       — `send_or_update_ticket_card`, `handle_question_text`
* `src/handlers/admin.py`      — the `awaiting_ban_reason` branch of `admin_text_handler`
* `src/handlers/callbacks.py`  — the `user_start_question` branch of `callback_handler`

The repository's `services/tickets.py`, `services/bans.py`, `config.py` and
`storage/` are imported by the handlers but are not present in the source tree;
where their behaviour decides a property they are modelled from the spec, and
each such definition carries a doc comment starting with `Modelled from the
spec:`.  Config constants (`ASK_MIN_LENGTH`, `FEEDBACK_COOLDOWN_ENABLED`,
`FEEDBACK_COOLDOWN_HOURS`) are passed as parameters.

Time model: timestamps are integer seconds (`datetime.now()` values are
reals; sub-second precision is irrelevant to every property proved here).
-/

namespace BotSupport

/-- Python `d[k] = v` on an insertion-ordered dict represented as an
association list: an existing key keeps its position and gets the new value,
a fresh key is appended at the end. -/
def pyDictSet {α β : Type} [DecidableEq α] : List (α × β) → α → β → List (α × β)
  | [], k, v => [(k, v)]
  | (k', v') :: rest, k, v =>
    if k' = k then (k, v) :: rest else (k', v') :: pyDictSet rest k v

/-! ## Scheduler — `src/services/scheduler.py` -/

/-- One entry of `SchedulerService.jobs`
(`{'func': ..., 'interval': seconds, 'last_run': ..., 'next_run': ...}`).
The callable itself lives outside the state: each tick receives the behaviour
of every callable (its running time in seconds and whether it returns or
raises) as a parameter `beh`. -/
structure Job where
  interval : Nat
  last_run : Option Nat
  next_run : Nat
deriving Repr, DecidableEq

/-- The `for job_id, job_info in self.jobs.items():` loop of `_run_scheduler`
(src/services/scheduler.py lines 77-95).  `now` is the single `datetime.now()`
sample taken at the top of the `while` iteration; `t` is the wall-clock time at
which the next job body would actually begin (it advances by the duration of
every executed job body, while the `now` variable stays fixed).

Returns the updated job list and the run log: for each executed job its id,
the time its body started, and whether its body returned normally.  A body
that raises is handled by the per-job `except Exception` branch, which skips
the `last_run` update but still assigns
`next_run = now + timedelta(seconds=interval)` — the same assignment as the
success path, both computed from the fixed `now`. -/
def runJobs (now : Nat) (beh : String → Nat × Bool) :
    Nat → List (String × Job) → List (String × Job) × List (String × Nat × Bool)
  | _, [] => ([], [])
  | t, (jid, j) :: rest =>
    if j.next_run ≤ now then
      let d := (beh jid).1
      let ok := (beh jid).2
      let j' : Job :=
        if ok then { j with last_run := some now, next_run := now + j.interval }
        else { j with next_run := now + j.interval }
      let r := runJobs now beh (t + d) rest
      ((jid, j') :: r.1, (jid, t, ok) :: r.2)
    else
      let r := runJobs now beh t rest
      ((jid, j) :: r.1, r.2)

/-- One full scan of the job table within a `while self.running` iteration;
job bodies start executing right after the `now = datetime.now()` sample. -/
def runTick (now : Nat) (beh : String → Nat × Bool) (jobs : List (String × Job)) :
    List (String × Job) × List (String × Nat × Bool) :=
  runJobs now beh now jobs

/-- How the tick rewrites a single job entry (success and failure both get
`next_run = now + interval`; only success records `last_run = now`). -/
def tickUpdate (now : Nat) (beh : String → Nat × Bool) (p : String × Job) : String × Job :=
  if p.2.next_run ≤ now then
    if (beh p.1).2 then
      (p.1, { p.2 with last_run := some now, next_run := now + p.2.interval })
    else
      (p.1, { p.2 with next_run := now + p.2.interval })
  else p

/-- Status of the background task created by `start()` to run
`_run_scheduler`.  `sleeping` = suspended at `await asyncio.sleep(1)` (the
loop's only suspension point between ticks); `finished` = `_run_scheduler`
returned, either because `self.running` became false or because the
`asyncio.CancelledError` raised by `task.cancel()` was handled by the outer
`except asyncio.CancelledError` branch. -/
inductive LoopPhase
  | sleeping
  | finished
deriving Repr, DecidableEq

/-- The whole `SchedulerService` object plus the cooperative loop task it
owns.  `tasks` is the length of `self.tasks`; `phase` is the loop task's
status; `executed` is a ghost log of every job id whose body was started, in
order — it lets theorems talk about "a job function executes". -/
structure SchedulerService where
  running : Bool
  jobs : List (String × Job)
  tasks : Nat
  phase : LoopPhase
  executed : List String
deriving Repr, DecidableEq

/-- `SchedulerService.__init__`: no jobs, not running, empty task list. -/
def initScheduler : SchedulerService :=
  { running := false, jobs := [], tasks := 0, phase := .finished, executed := [] }

/-- `SchedulerService.add_job` (lines 25-45): stores the job with
`last_run = None` and `next_run = datetime.now()`, overwriting any existing
entry with the same id. -/
def add_job (s : SchedulerService) (job_id : String) (interval_seconds : Nat)
    (now : Nat) : SchedulerService :=
  { s with jobs :=
      pyDictSet s.jobs job_id ⟨interval_seconds, none, now⟩ }

/-- `SchedulerService.remove_job` (lines 47-56): `del self.jobs[job_id]` when
present. -/
def remove_job (s : SchedulerService) (job_id : String) : SchedulerService :=
  { s with jobs := s.jobs.filter (fun p => p.1 ≠ job_id) }

/-- `SchedulerService.start` (lines 58-69): returns immediately when already
running; otherwise sets the flag and appends one freshly created loop task. -/
def schedStart (s : SchedulerService) : SchedulerService :=
  if s.running then s
  else { s with running := true, tasks := s.tasks + 1, phase := .sleeping }

/-- `SchedulerService.stop` (lines 104-121): returns immediately when not
running; otherwise clears the flag, cancels every task in `self.tasks` and
awaits each one's completion (swallowing its `CancelledError`), then clears
the list.  The cancellation is delivered at the task's suspension point and
handled by `_run_scheduler`'s outer `except asyncio.CancelledError`, so the
task finishes without starting any further job body — `executed` is
untouched.  Even a job body that swallowed the cancellation is awaited to
completion before `stop` returns. -/
def schedStop (s : SchedulerService) : SchedulerService :=
  if s.running = false then s
  else { s with running := false, tasks := 0, phase := .finished }

/-- One wake-up of `_run_scheduler` at the `while self.running:` check: if the
flag is up, sample `now`, scan and run due jobs (the `runTick` pass), then go
back to sleep; if the flag is down, fall out of the loop and finish. -/
def tick (s : SchedulerService) (now : Nat) (beh : String → Nat × Bool) :
    SchedulerService :=
  if s.running then
    let r := runTick now beh s.jobs
    { s with jobs := r.1, executed := s.executed ++ r.2.map (·.1) }
  else
    { s with phase := .finished }

/-- Spontaneous activity of the loop task between API calls: it can wake from
its sleep (at any wall-clock time, with any job-body behaviour), or receive a
cancellation at its suspension point.  Only a `sleeping` task does anything;
a `finished` asyncio task can never resume. -/
inductive LoopStep : SchedulerService → SchedulerService → Prop
  | wake (s : SchedulerService) (now : Nat) (beh : String → Nat × Bool) :
      s.phase = .sleeping → LoopStep s (tick s now beh)
  | cancel (s : SchedulerService) :
      s.phase = .sleeping → LoopStep s { s with phase := .finished }

/-- The full client-visible operation alphabet of the scheduler service. -/
inductive SchedOp
  | addJob (job_id : String) (interval_seconds now : Nat)
  | removeJob (job_id : String)
  | startOp
  | stopOp
  | wakeOp (now : Nat) (beh : String → Nat × Bool)
  | cancelOp

def applySchedOp (s : SchedulerService) : SchedOp → SchedulerService
  | .addJob jid iv now => add_job s jid iv now
  | .removeJob jid => remove_job s jid
  | .startOp => schedStart s
  | .stopOp => schedStop s
  | .wakeOp now beh => if s.phase = .sleeping then tick s now beh else s
  | .cancelOp => if s.phase = .sleeping then { s with phase := .finished } else s

def runSchedOps (s : SchedulerService) : List SchedOp → SchedulerService
  | [] => s
  | op :: rest => runSchedOps (applySchedOp s op) rest

/-- The task-count bookkeeping invariant: exactly one loop task while the flag
is up, none once it is down (`stop` clears the list, `start` appends to it). -/
def TaskInv (s : SchedulerService) : Prop :=
  s.tasks = if s.running then 1 else 0

/-! ## Feedback cooldown — `src/services/feedback.py` -/

/-- `FeedbackService.last_feedback`: `(user_id, type) -> datetime` of the last
submission.  Timestamps are integer seconds. -/
structure FeedbackService where
  last_feedback : List ((Nat × String) × Int)
deriving Repr, DecidableEq

/-- Python `//` on integers: floor division. -/
def pyFloorDiv (a b : Int) : Int := a.fdiv b

/-- `FeedbackService.check_cooldown` (src/services/feedback.py lines 24-64).
`enabled` and `cooldown_hours` stand for the config constants
`FEEDBACK_COOLDOWN_ENABLED` and `FEEDBACK_COOLDOWN_HOURS` (config.py is not
part of src/).  The second component is the `remaining` hour count
`int((need - elapsed + 3599) // 3600)` that the code interpolates into the
localized `messages.<type>_cooldown` text via `get_text(key, lang, hours=remaining)`;
`none` when the submission is allowed and no message is built. -/
def check_cooldown (enabled : Bool) (cooldown_hours : Nat) (svc : FeedbackService)
    (user_id : Nat) (feedback_type : String) (now : Int) : Bool × Option Int :=
  if enabled = false then (true, none)
  else
    match svc.last_feedback.lookup (user_id, feedback_type) with
    | none => (true, none)
    | some last_time =>
      let elapsed : Int := now - last_time
      let need : Int := (cooldown_hours : Int) * 3600
      if need ≤ elapsed then (true, none)
      else (false, some (pyFloorDiv (need - elapsed + 3599) 3600))

/-- `FeedbackService.update_last_feedback` (lines 66-69). -/
def update_last_feedback (svc : FeedbackService) (user_id : Nat)
    (feedback_type : String) (now : Int) : FeedbackService :=
  { svc with last_feedback := pyDictSet svc.last_feedback (user_id, feedback_type) now }

/-! ## Ban flow — `src/handlers/admin.py` lines 321-361 -/

/-- Modelled from the spec: `services/bans.py` is absent from src/.  Spec §6
(BanRegistry): `ban(userId, reason)` records the reason for the user;
`list()` returns the `[(userId, reason)]` pairs (this is what
`ban_manager.get_banned_list()` hands to the handler). -/
def ban_user (bans : List (Nat × String)) (user_id : Nat) (reason : String) :
    List (Nat × String) :=
  pyDictSet bans user_id reason

/-- The first `reason` found for `user_id` when scanning
`ban_manager.get_banned_list()` in order — the handler's
`for banned_user_id, reason in banned_list:` loop. -/
def findBanReason (bans : List (Nat × String)) (user_id : Nat) : Option String :=
  bans.lookup user_id

/-- What the `awaiting_ban_reason` branch replies to the admin. -/
inductive BanReply
  | alreadyBanned (user_id : Nat) (reason : String)
  | bannedNow (user_id : Nat) (reason : String)
  | noReply
deriving Repr, DecidableEq

structure BanStepResult where
  bans : List (Nat × String)
  state : Option String
  ban_invoked : Bool
  reply : BanReply
deriving Repr, DecidableEq

/-- The `elif state == "awaiting_ban_reason":` branch of `admin_text_handler`
(src/handlers/admin.py lines 321-361).  `ban_user_id` is
`context.user_data.get("ban_user_id")` (`none` also covers the falsy-zero
case of `if user_id:`; Telegram user ids are ≥ 1); `text` is the admin's
message, used as the ban reason.  If the target is already banned the stored
reason is reported, `ban_user` is not invoked, and the state returns to idle
(`None`); otherwise the target is banned with `text` as reason. -/
def admin_ban_reason_step (bans : List (Nat × String)) (ban_user_id : Option Nat)
    (text : String) : BanStepResult :=
  match ban_user_id with
  | none =>
    { bans := bans, state := some "awaiting_ban_reason", ban_invoked := false,
      reply := .noReply }
  | some uid =>
    match findBanReason bans uid with
    | some reason =>
      { bans := bans, state := none, ban_invoked := false,
        reply := .alreadyBanned uid reason }
    | none =>
      { bans := ban_user bans uid text, state := none, ban_invoked := true,
        reply := .bannedNow uid text }

/-! ## Localization — `src/locales/__init__.py` -/

/-- One field of a Python `str.format` template, as stored in the locale JSON
files.  `named` is a `\x7bname\x7d` replacement field; `positional` is a
`\x7b0\x7d`-style (or automatic `\x7b\x7d`) field; `badSpec` is a field whose
conversion or format spec makes `str.format` raise `ValueError`. -/
inductive FmtItem
  | lit (s : String)
  | named (name : String)
  | positional (idx : Nat)
  | badSpec
deriving Repr, DecidableEq

/-- A template string is a sequence of literal chunks and replacement
fields. -/
abbrev Template := List FmtItem

/-- A Python value passed as a keyword argument to `get_text`. -/
inductive PyVal
  | intV (n : Int)
  | strV (s : String)
deriving Repr, DecidableEq

/-- `str(v)`, the text substituted for a replacement field. -/
def PyVal.render : PyVal → String
  | .intV n => toString n
  | .strV s => s

/-- The raw source text of a template: what Python returns when `get_text`
falls back to the unformatted `value`. -/
def Template.raw : Template → String
  | [] => ""
  | .lit s :: rest => s ++ Template.raw rest
  | .named n :: rest => "\x7b" ++ n ++ "\x7d" ++ Template.raw rest
  | .positional i :: rest => "\x7b" ++ toString i ++ "\x7d" ++ Template.raw rest
  | .badSpec :: rest => "\x7b:!\x7d" ++ Template.raw rest

/-- The Python exception classes that `get_text`'s two `try` blocks
distinguish. -/
inductive PyErr
  | keyError
  | valueError
  | indexError
  | attributeError
  | typeError
deriving Repr, DecidableEq

/-- `value.format(**format_kwargs)` with keyword arguments only.  Fields are
processed left to right and the first failing field raises: a `named` field
missing from the arguments raises `KeyError`, a `positional` field always
raises `IndexError` (no positional arguments are ever passed), and a
`badSpec` field raises `ValueError`. -/
def formatTemplate (t : Template) (args : List (String × PyVal)) :
    Except PyErr String :=
  match t with
  | [] => .ok ""
  | .lit s :: rest => (formatTemplate rest args).map (s ++ ·)
  | .named n :: rest =>
    match args.lookup n with
    | none => .error .keyError
    | some v => (formatTemplate rest args).map (v.render ++ ·)
  | .positional _ :: _ => .error .indexError
  | .badSpec :: _ => .error .valueError

/-- A value of the loaded locale JSON: either a leaf template string or a
nested section object (a dict). -/
inductive LocaleVal
  | strV (t : Template)
  | node (entries : List (String × LocaleVal))

/-- Whether a template contains a positional replacement field. -/
def hasPositional (t : Template) : Bool :=
  t.any fun i => match i with
    | .positional _ => true
    | _ => false

/-- The `for k in keys: value = value[k]` walk of `get_text`.  Indexing a dict
with an absent key raises `KeyError`; indexing a string with a string key
raises `TypeError`.  Both are caught by the outer handler. -/
def navigate : LocaleVal → List String → Except PyErr LocaleVal
  | v, [] => .ok v
  | .node entries, k :: rest =>
    match entries.lookup k with
    | none => .error .keyError
    | some v => navigate v rest
  | .strV _, _ :: _ => .error .typeError

/-- The module-level state of `src/locales/__init__.py` plus the
`data_manager` collaborator consulted by `get_user_locale` (the `storage/`
package is not part of src/; a lookup failure there is caught and treated as
`none`). -/
structure LocalesState where
  locales_data : List (String × LocaleVal)
  current_locale : Option String
  user_locales : List (Int × String)
  storage_locale : Int → Option String

/-- Python truthiness of an optional string: `None` and `""` are falsy. -/
def truthyS : Option String → Bool
  | none => false
  | some s => s ≠ ""

/-- `get_user_locale` (src/locales/__init__.py lines 90-118): in-memory map
first, then the persisted value (only `if locale:`, so an empty string falls
through), then the global locale.  The write-back cache does not change the
returned value and is not modelled. -/
def get_user_locale (st : LocalesState) (user_id : Int) : Option String :=
  match st.user_locales.lookup user_id with
  | some loc => some loc
  | none =>
    match st.storage_locale user_id with
    | some loc => if loc = "" then st.current_locale else some loc
    | none => st.current_locale

/-- What a call to `get_text` does, seen from the caller: returns a `str`,
returns a non-string object (the nested section dict itself), or lets an
exception escape. -/
inductive GetTextResult
  | str (s : String)
  | nonStr
  | raised (e : PyErr)
deriving Repr, DecidableEq

/-- Helper for `splitKey`: walks the characters, cutting at every `'.'`
(structural recursion, so proofs can evaluate it). -/
def splitKeyAux : List Char → List Char → List String
  | [], acc => [String.mk acc.reverse]
  | c :: rest, acc =>
    if c = '.' then String.mk acc.reverse :: splitKeyAux rest []
    else splitKeyAux rest (c :: acc)

/-- `key.split(".")`: Python splits on every dot, keeping empty pieces
(`"" → [""]`, `"a..b" → ["a", "", "b"]`). -/
def splitKey (key : String) : List String := splitKeyAux key.data []

/-- `format_kwargs`: every keyword argument except the meta parameter
`user_id`. -/
def format_kwargs (kwargs : List (String × PyVal)) : List (String × PyVal) :=
  kwargs.filter fun p => p.1 ≠ "user_id"

/-- The locale actually used by `get_text` (`current_locale` in the code):
explicit `locale` wins, then `lang` (a backward-compatibility alias, only
when truthy and `locale` is not), then the per-user locale when `user_id` is
among the keyword arguments, then the global locale. -/
def effectiveLocale (st : LocalesState) (lang locale : Option String)
    (kwargs : List (String × PyVal)) : Option String :=
  let locale := if truthyS lang ∧ ¬ truthyS locale then lang else locale
  if truthyS locale then locale
  else
    match kwargs.lookup "user_id" with
    | some (.intV n) => get_user_locale st n
    | some (.strV _) =>
      -- a non-int user_id matches nothing in the int-keyed caches; the
      -- storage lookup failure is swallowed and the global locale is used
      st.current_locale
    | none => st.current_locale

/-- `_locales_data[current_locale]` followed by the key walk. -/
def lookupValue (st : LocalesState) (cur : String) (key : String) :
    Except PyErr LocaleVal :=
  match st.locales_data.lookup cur with
  | none => .error .keyError
  | some root => navigate root (splitKey key)

/-- The `if kwargs:` tail of `get_text` (lines 185-208): formatting with the
non-meta keyword arguments, the inner `except KeyError`/`except ValueError`
fallbacks to the unformatted value, and the plain `return value` paths.
Calling `.format` on a dict raises `AttributeError`, which the outer handler
turns into `""`; an `IndexError` from a positional field is caught by
neither handler and escapes. -/
def applyKwargs (v : LocaleVal) (kwargs : List (String × PyVal)) : GetTextResult :=
  if kwargs = [] then
    match v with
    | .strV t => .str t.raw
    | .node _ => .nonStr
  else
    let fk := format_kwargs kwargs
    if fk = [] then
      match v with
      | .strV t => .str t.raw
      | .node _ => .nonStr
    else
      match v with
      | .node _ => .str ""
      | .strV t =>
        match formatTemplate t fk with
        | .ok s => .str s
        | .error .keyError => .str t.raw
        | .error .valueError => .str t.raw
        | .error .indexError => .raised .indexError
        | .error .attributeError => .str ""
        | .error .typeError => .str ""

/-- `get_text` (src/locales/__init__.py lines 131-213).  The outer
`except (KeyError, AttributeError, TypeError)` turns a failed locale or key
lookup into `""`; an unset (or falsy) effective locale returns `""` directly. -/
def get_text (st : LocalesState) (key : String) (lang locale : Option String)
    (kwargs : List (String × PyVal)) : GetTextResult :=
  match effectiveLocale st lang locale kwargs with
  | none => .str ""
  | some cur =>
    if cur = "" then .str ""
    else
      match lookupValue st cur key with
      | .error _ => .str ""
      | .ok v => applyKwargs v kwargs

/-! ## Ticket card renderer — `src/handlers/user.py` lines 20-96 -/

/-- Outcome of `context.bot.edit_message_text`: success, the Telegram
`BadRequest("Message is not modified")` raised when the new content equals
the current one, or any other transport failure.  The code's
`except Exception` does not distinguish the last two. -/
inductive EditOutcome
  | ok
  | notModified
  | failed
deriving Repr, DecidableEq

/-- Outcome of `context.bot.send_message`: the new message id, or a
transport failure. -/
inductive SendOutcome
  | sent (message_id : Nat)
  | failed
deriving Repr, DecidableEq

/-- Result of one `send_or_update_ticket_card` call: the updated
`TICKET_CARD_MESSAGES` map, which transport calls were attempted, and
whether the function reached a normal return (the outer `except Exception`
swallows a failed send, leaving the map untouched). -/
structure RenderResult where
  cards : List (Nat × Nat)
  editAttempted : Bool
  sendAttempted : Bool
  succeeded : Bool
deriving Repr, DecidableEq

/-- `send_or_update_ticket_card` (src/handlers/user.py lines 20-96).
`ticketExists` is whether the ticket id is found in
`data_manager.get_all_tickets()`; `cards` is the module-level
`TICKET_CARD_MESSAGES` dict (ticket id → message id); `message_id` is the
caller-supplied stored id (`if message_id:` — Telegram message ids are ≥ 1,
so falsiness coincides with `None`).  With a stored id the code first tries
to edit that message; on success it stores the same id back and returns.  On
ANY edit exception — including "Message is not modified" — it logs a warning
and falls through to `send_message`, storing the new message's id.  Text and
keyboard construction do not affect the map and are not modelled. -/
def send_or_update_ticket_card (ticketExists : Bool) (cards : List (Nat × Nat))
    (ticket_id : Nat) (message_id : Option Nat) (edit : EditOutcome)
    (send : SendOutcome) : RenderResult :=
  if ticketExists = false then
    { cards := cards, editAttempted := false, sendAttempted := false, succeeded := false }
  else
    match message_id with
    | some m =>
      match edit with
      | .ok =>
        { cards := pyDictSet cards ticket_id m, editAttempted := true,
          sendAttempted := false, succeeded := true }
      | _ =>
        match send with
        | .sent n =>
          { cards := pyDictSet cards ticket_id n, editAttempted := true,
            sendAttempted := true, succeeded := true }
        | .failed =>
          { cards := cards, editAttempted := true, sendAttempted := true,
            succeeded := false }
    | none =>
      match send with
      | .sent n =>
        { cards := pyDictSet cards ticket_id n, editAttempted := false,
          sendAttempted := true, succeeded := true }
      | .failed =>
        { cards := cards, editAttempted := false, sendAttempted := true,
          succeeded := false }

/-- A map keyed like a Python dict: every key occurs at most once. -/
def NodupKeys {α β : Type} (l : List (α × β)) : Prop := (l.map Prod.fst).Nodup

/-! ## Ticket store and the question flow
`src/handlers/user.py`, `src/handlers/callbacks.py` -/

inductive TicketStatus
  | new
  | working
  | done
deriving Repr, DecidableEq

/-- A ticket entity (spec §3; `messages` entries are `(sender, text)`). -/
structure Ticket where
  tid : Nat
  user_id : Nat
  username : Option String
  status : TicketStatus
  messages : List (String × String)
  last_actor : String
deriving Repr, DecidableEq

/-- Modelled from the spec: `services/tickets.py` is absent from src/.  The
store keeps the ticket entities; fresh ids are drawn from a counter (the
spec only requires ids to be unique and immutable). -/
structure TicketStore where
  tickets : List Ticket
  next_id : Nat
deriving Repr, DecidableEq

/-- Modelled from the spec: `getActiveForUser(user_id)` returns the sole
non-`done` ticket of the user, or none (spec §4.1); this is what
`ticket_service.get_user_active_ticket` returns to the handlers. -/
def get_user_active_ticket (store : TicketStore) (uid : Nat) : Option Ticket :=
  store.tickets.find? fun t => t.user_id = uid ∧ t.status ≠ .done

/-- Modelled from the spec: `create(user_id, text, username)` fails with
`AlreadyActive` if the user already holds a non-done ticket; otherwise it
allocates a new ticket in state `new` with one message, sender = `user`,
`last_actor = user` (spec §4.1).  `none` is the `AlreadyActive` failure. -/
def create_ticket (store : TicketStore) (uid : Nat) (text : String)
    (username : Option String) : Option (TicketStore × Ticket) :=
  if (get_user_active_ticket store uid).isSome then none
  else
    let t : Ticket :=
      { tid := store.next_id, user_id := uid, username := username,
        status := .new, messages := [("user", text)], last_actor := "user" }
    some ({ tickets := store.tickets ++ [t], next_id := store.next_id + 1 }, t)

/-- Modelled from the spec: `close(ticket_id)` transitions to `done` from
either `new` or `working`; `NotFound` when no ticket has the id (spec §4.1). -/
def close_ticket (store : TicketStore) (tid : Nat) : Option (TicketStore × Ticket) :=
  match store.tickets.find? (fun t => t.tid = tid) with
  | none => none
  | some t =>
    let t' := { t with status := TicketStatus.done }
    some ({ store with
              tickets := store.tickets.map fun u => if u.tid = tid then t' else u },
          t')

/-- Modelled from the spec: `take(ticket_id, operator_id)` is legal only from
`new` and transitions to `working`; a second call is an `InvalidTransition`
no-op (spec §4.1). -/
def take_ticket (store : TicketStore) (tid : Nat) : Option (TicketStore × Ticket) :=
  match store.tickets.find? (fun t => t.tid = tid) with
  | none => none
  | some t =>
    if t.status = .new then
      let t' := { t with status := TicketStatus.working }
      some ({ store with
                tickets := store.tickets.map fun u => if u.tid = tid then t' else u },
            t')
    else none

/-- Modelled from the spec: `addMessage(ticket_id, sender, text)` appends a
message regardless of status and updates `last_actor` (spec §4.1). -/
def add_message (store : TicketStore) (tid : Nat) (sender text : String) :
    Option (TicketStore × Ticket) :=
  match store.tickets.find? (fun t => t.tid = tid) with
  | none => none
  | some t =>
    let t' := { t with messages := t.messages ++ [(sender, text)], last_actor := sender }
    some ({ store with
              tickets := store.tickets.map fun u => if u.tid = tid then t' else u },
          t')

/-- What `handle_question_text` replies to the user. -/
inductive UserReply
  | minLength
  | ticketCreated (tid : Nat)
deriving Repr, DecidableEq

/-- Result of one `handle_question_text` call.  `creation_attempted` records
whether `ticket_service.create_ticket` was invoked; `raised` records the
`AlreadyActive` failure propagating out of the handler (the handler has no
`try` around the call, so the state assignment below it is skipped). -/
structure QuestionResult where
  store : TicketStore
  state : Option String
  reply : Option UserReply
  creation_attempted : Bool
  raised : Bool
deriving Repr, DecidableEq

/-- `handle_question_text` (src/handlers/user.py lines 233-265).
`ask_min_length` is the config constant `ASK_MIN_LENGTH` (config.py is not
part of src/).  Text shorter than the minimum gets the `messages.min_length`
re-prompt and returns without touching the store or the state; otherwise the
ticket is created, the state is cleared (`context.user_data["state"] = None`)
and the user is told the ticket id. -/
def handle_question_text (ask_min_length : Nat) (store : TicketStore) (uid : Nat)
    (username : Option String) (state : Option String) (text : String) :
    QuestionResult :=
  if text.length < ask_min_length then
    { store := store, state := state, reply := some .minLength,
      creation_attempted := false, raised := false }
  else
    match create_ticket store uid text username with
    | some (store', t) =>
      { store := store', state := none, reply := some (.ticketCreated t.tid),
        creation_attempted := true, raised := false }
    | none =>
      { store := store, state := state, reply := none,
        creation_attempted := true, raised := true }

/-- Count of a user's non-`done` tickets. -/
def activeCount (uid : Nat) (ts : List Ticket) : Nat :=
  ts.countP fun t => t.user_id = uid ∧ t.status ≠ .done

/-- The conversation-state map (`context.user_data["state"]` per user)
together with the ticket store: the state that the C1 operation sequences
act on. -/
structure BotState where
  store : TicketStore
  conv : Nat → Option String

def initBot : BotState :=
  { store := { tickets := [], next_id := 0 }, conv := fun _ => none }

def setConv (f : Nat → Option String) (uid : Nat) (v : Option String) :
    Nat → Option String :=
  fun u => if u = uid then v else f u

/-- The operations of the question/ticket lifecycle reachable from the
handlers in src/:
* `startQuestionCallback` — the `user_start_question` branch of
  `callback_handler` (src/handlers/callbacks.py lines 62-66): sets the state
  to `awaiting_question` with no active-ticket check;
* `askCommand` — `ask_question_handler` (src/handlers/user.py lines 99-125):
  refuses when the user already holds an active ticket, otherwise sets the
  state (the ban guard can only turn the operation into a no-op and is
  subsumed by the identity transition);
* `submitText` — `text_message_handler` (lines 174-230) routing a free-text
  message: in `awaiting_question` it runs `handle_question_text`; the
  suggestion/review/reply flows never create or reopen tickets and are
  modelled as ticket-store no-ops; with no state, a message in an active
  ticket appends via `add_message` when the support side acted last;
* `takeOp`/`closeOp` — `handle_take_ticket`/`handle_close_ticket`
  (src/handlers/callbacks.py lines 551-607) calling the ticket service. -/
inductive BotOp
  | startQuestionCallback (uid : Nat)
  | askCommand (uid : Nat)
  | submitText (uid : Nat) (username : Option String) (text : String)
  | takeOp (tid : Nat)
  | closeOp (tid : Nat)

def applyBotOp (ask_min_length : Nat) (s : BotState) : BotOp → BotState
  | .startQuestionCallback uid =>
    { s with conv := setConv s.conv uid (some "awaiting_question") }
  | .askCommand uid =>
    if (get_user_active_ticket s.store uid).isSome then s
    else { s with conv := setConv s.conv uid (some "awaiting_question") }
  | .submitText uid username text =>
    match s.conv uid with
    | some st =>
      if st = "awaiting_question" then
        let r := handle_question_text ask_min_length s.store uid username
          (some "awaiting_question") text
        { store := r.store, conv := setConv s.conv uid r.state }
      else s
    | none =>
      match get_user_active_ticket s.store uid with
      | some t =>
        if t.last_actor = "user" then s
        else
          match add_message s.store t.tid "user" text with
          | some (store', _) => { s with store := store' }
          | none => s
      | none => s
  | .takeOp tid =>
    match take_ticket s.store tid with
    | some (store', _) => { s with store := store' }
    | none => s
  | .closeOp tid =>
    match close_ticket s.store tid with
    | some (store', _) => { s with store := store' }
    | none => s

def runBot (ask_min_length : Nat) (s : BotState) : List BotOp → BotState
  | [] => s
  | op :: rest => runBot ask_min_length (applyBotOp ask_min_length s op) rest

/-- Well-formedness of the store: ticket ids are pairwise distinct and below
the id counter. -/
def TicketsWF (store : TicketStore) : Prop :=
  (store.tickets.map Ticket.tid).Nodup ∧ ∀ t ∈ store.tickets, t.tid < store.next_id

/-- The inductive invariant behind C1: well-formed ids plus at most one
active ticket per user. -/
def BotInv (s : BotState) : Prop :=
  TicketsWF s.store ∧ ∀ u, activeCount u s.store.tickets ≤ 1

/-! ## Concrete instances used by counterexamples and witnesses -/

/-- Jobs used by the C2 counterexample and witness: both due at time 100 with
a 10-second interval; job "a"'s body runs for 5 seconds and raises, job "b"'s
body returns immediately. -/
def c2Jobs : List (String × Job) :=
  [("a", ⟨10, none, 100⟩), ("b", ⟨10, none, 100⟩)]

def c2Beh : String → Nat × Bool :=
  fun jid => if jid = "a" then (5, false) else (0, true)

/-- Jobs and behaviour for the C5 witness: "x" raises instantly, "y" runs
fine; both due at time 0. -/
def c5Jobs : List (String × Job) :=
  [("x", ⟨10, none, 0⟩), ("y", ⟨7, none, 0⟩)]

def c5Beh : String → Nat × Bool :=
  fun jid => if jid = "x" then (0, false) else (0, true)

/-- The locale data of the C9 counterexample: English is loaded and set as
the global locale; `greet` is the template `"\x7b0\x7d"` (one positional
field), and `messages` is a nested section holding `welcome = "hi"`. -/
def c9Locales : LocalesState :=
  { locales_data :=
      [("en", .node [("greet", .strV [.positional 0]),
                     ("messages", .node [("welcome", .strV [.lit "hi"])])])],
    current_locale := some "en",
    user_locales := [],
    storage_locale := fun _ => none }

/-! ## Theorems: helper lemmas, then one theorem per claim -/

theorem lookup_pyDictSet {α β : Type} [DecidableEq α] (l : List (α × β)) (k : α) (v : β) :
    (pyDictSet l k v).lookup k = some v := by
  induction l with
  | nil => simp [pyDictSet]
  | cons p rest ih =>
    by_cases h : p.1 = k
    · simp [pyDictSet, h]
    · have hne : (k == p.1) = false := beq_eq_false_iff_ne.mpr (Ne.symm h)
      simp only [pyDictSet]
      rw [if_neg h]
      simpa [List.lookup, hne] using ih

theorem runJobs_fst (now : Nat) (beh : String → Nat × Bool) :
    ∀ (t : Nat) (jobs : List (String × Job)),
      (runJobs now beh t jobs).1 = jobs.map (tickUpdate now beh) := by
  intro t jobs
  induction jobs generalizing t with
  | nil => simp [runJobs]
  | cons p rest ih =>
    obtain ⟨jid, j⟩ := p
    by_cases h : j.next_run ≤ now
    · by_cases hok : (beh jid).2
      · simp [runJobs, h, hok, tickUpdate, ih]
      · simp [runJobs, h, hok, tickUpdate, ih]
    · simp [runJobs, h, tickUpdate, ih]

/-- Every job due at `now` shows up in the run log of the tick (with the
outcome dictated by its body), no matter how other jobs behave. -/
theorem runJobs_mem_log (now : Nat) (beh : String → Nat × Bool)
    (jid : String) (j : Job) :
    ∀ (t : Nat) (jobs : List (String × Job)), (jid, j) ∈ jobs → j.next_run ≤ now →
      ∃ st : Nat, (jid, st, (beh jid).2) ∈ (runJobs now beh t jobs).2 := by
  intro t jobs
  induction jobs generalizing t with
  | nil => intro h; cases h
  | cons p rest ih =>
    intro hmem hdue
    obtain ⟨pid, pj⟩ := p
    rcases List.mem_cons.mp hmem with heq | htail
    · obtain ⟨h1, h2⟩ := Prod.mk.injEq .. ▸ heq
      subst h1; subst h2
      refine ⟨t, ?_⟩
      simp [runJobs, hdue]
    · by_cases h : pj.next_run ≤ now
      · obtain ⟨st, hst⟩ := ih (t + (beh pid).1) htail hdue
        exact ⟨st, by simp [runJobs, h]; right; exact hst⟩
      · obtain ⟨st, hst⟩ := ih t htail hdue
        exact ⟨st, by simp [runJobs, h]; exact hst⟩

/-- If the first due job in the table is `(jid, j)`, its body starts exactly at
the tick's `now` sample (it heads the run log). -/
theorem runJobs_first_due (now : Nat) (beh : String → Nat × Bool)
    (pre : List (String × Job)) (jid : String) (j : Job) (post : List (String × Job))
    (hpre : ∀ p ∈ pre, ¬ p.2.next_run ≤ now) (hdue : j.next_run ≤ now) :
    ∃ rest, (runTick now beh (pre ++ (jid, j) :: post)).2
      = (jid, now, (beh jid).2) :: rest := by
  unfold runTick
  induction pre with
  | nil => exact ⟨(runJobs now beh (now + (beh jid).1) post).2, by simp [runJobs, hdue]⟩
  | cons p pre ih =>
    have hp : ¬ p.2.next_run ≤ now := hpre p (by simp)
    obtain ⟨rest, hrest⟩ := ih (fun q hq => hpre q (by simp [hq]))
    exact ⟨rest, by
      obtain ⟨pid, pj⟩ := p
      simpa [runJobs, hp] using hrest⟩

theorem taskInv_applySchedOp (s : SchedulerService) (op : SchedOp)
    (h : TaskInv s) : TaskInv (applySchedOp s op) := by
  unfold TaskInv at h ⊢
  cases op with
  | addJob jid iv now => simpa [applySchedOp, add_job] using h
  | removeJob jid => simpa [applySchedOp, remove_job] using h
  | startOp =>
    by_cases hr : s.running
    · simp [applySchedOp, schedStart, hr, h]
    · simp [hr] at h
      simp [applySchedOp, schedStart, hr, h]
  | stopOp =>
    by_cases hr : s.running <;> simp [applySchedOp, schedStop, hr, h]
  | wakeOp now beh =>
    by_cases hp : s.phase = LoopPhase.sleeping <;>
      by_cases hr : s.running <;> simp [applySchedOp, tick, hp, hr, h]
  | cancelOp =>
    by_cases hp : s.phase = LoopPhase.sleeping <;> simp [applySchedOp, hp, h]

theorem taskInv_runSchedOps (ops : List SchedOp) (s : SchedulerService)
    (h : TaskInv s) : TaskInv (runSchedOps s ops) := by
  induction ops generalizing s with
  | nil => exact h
  | cons op rest ih => exact ih _ (taskInv_applySchedOp s op h)

/-- After `stop`, the loop's activity can no longer grow the execution log:
`running` is down, and a wake of the (possibly still-`sleeping`) task falls
out of the `while` immediately. -/
theorem executed_frozen_of_not_running (s x : SchedulerService)
    (hrun : s.running = false)
    (htr : Relation.ReflTransGen LoopStep s x) :
    x.executed = s.executed ∧ x.running = false := by
  induction htr with
  | refl => exact ⟨rfl, hrun⟩
  | tail _ hstep ih =>
    obtain ⟨hexec, hrun2⟩ := ih
    cases hstep with
    | wake now beh hph => exact ⟨by simp [tick, hrun2, hexec], by simp [tick, hrun2]⟩
    | cancel hph => exact ⟨hexec, hrun2⟩

/-- `(x + 3599) // 3600` is exactly the ceiling of `x / 3600`. -/
theorem fdiv_add_3599_eq_ceil (x : ℤ) :
    pyFloorDiv (x + 3599) 3600 = ⌈(x : ℚ) / 3600⌉ := by
  unfold pyFloorDiv
  rw [Int.fdiv_eq_ediv _ (by norm_num : (0:ℤ) ≤ 3600)]
  set q : ℤ := (x + 3599) / 3600 with hq
  have h1 : q * 3600 ≤ x + 3599 := by omega
  have h2 : x + 3599 < (q + 1) * 3600 := by omega
  have h3600 : (0 : ℚ) < 3600 := by norm_num
  symm
  rw [Int.ceil_eq_iff]
  refine ⟨?_, ?_⟩
  · rw [lt_div_iff₀ h3600]
    have : (q - 1) * 3600 < x := by nlinarith
    calc ((q : ℚ) - 1) * 3600 = ((q - 1 : ℤ) : ℚ) * ((3600 : ℤ) : ℚ) := by push_cast; ring
    _ < (x : ℚ) := by exact_mod_cast this
  · rw [div_le_iff₀ h3600]
    have : x ≤ q * 3600 := by nlinarith
    calc (x : ℚ) ≤ ((q * 3600 : ℤ) : ℚ) := by exact_mod_cast this
    _ = (q : ℚ) * 3600 := by push_cast; ring

/-- `formatTemplate` raises `IndexError` only on a positional field. -/
theorem formatTemplate_indexError_hasPositional (t : Template)
    (args : List (String × PyVal))
    (h : formatTemplate t args = .error .indexError) : hasPositional t = true := by
  induction t with
  | nil => simp [formatTemplate] at h
  | cons i rest ih =>
    cases i with
    | lit s =>
      simp only [formatTemplate] at h
      cases hr : formatTemplate rest args with
      | ok s2 => rw [hr] at h; simp [Except.map] at h
      | error e =>
        rw [hr] at h
        simp [Except.map] at h
        subst h
        simp [hasPositional] at ih ⊢
        obtain ⟨x, hx, hpx⟩ := ih hr
        exact ⟨x, hx, hpx⟩
    | named n =>
      simp only [formatTemplate] at h
      cases hl : args.lookup n with
      | none => rw [hl] at h; simp at h
      | some v =>
        rw [hl] at h
        cases hr : formatTemplate rest args with
        | ok s2 => rw [hr] at h; simp [Except.map] at h
        | error e =>
          rw [hr] at h
          simp [Except.map] at h
          subst h
          simp [hasPositional] at ih ⊢
          obtain ⟨x, hx, hpx⟩ := ih hr
          exact ⟨x, hx, hpx⟩
    | positional idx => simp [hasPositional]
    | badSpec => simp [formatTemplate] at h

theorem mem_keys_pyDictSet {α β : Type} [DecidableEq α] (l : List (α × β)) (k : α)
    (v : β) (x : α) (hx : x ∈ (pyDictSet l k v).map Prod.fst) :
    x = k ∨ x ∈ l.map Prod.fst := by
  induction l with
  | nil => simpa [pyDictSet] using hx
  | cons p rest ih =>
    by_cases hk : p.1 = k
    · simp only [pyDictSet] at hx
      rw [if_pos hk] at hx
      simp only [List.map_cons, List.mem_cons] at hx ⊢
      rcases hx with h | h
      · exact Or.inl h
      · exact Or.inr (Or.inr h)
    · simp only [pyDictSet] at hx
      rw [if_neg hk] at hx
      simp only [List.map_cons, List.mem_cons] at hx ⊢
      rcases hx with h | h
      · exact Or.inr (Or.inl h)
      · rcases ih h with h2 | h2
        · exact Or.inl h2
        · exact Or.inr (Or.inr h2)

theorem nodupKeys_pyDictSet {α β : Type} [DecidableEq α] (l : List (α × β))
    (k : α) (v : β) (h : NodupKeys l) : NodupKeys (pyDictSet l k v) := by
  induction l with
  | nil => simp [pyDictSet, NodupKeys]
  | cons p rest ih =>
    unfold NodupKeys at h ⊢
    simp only [List.map_cons, List.nodup_cons] at h
    obtain ⟨hnotmem, hrest⟩ := h
    by_cases hk : p.1 = k
    · subst hk
      simp only [pyDictSet, if_true]
      simp only [List.map_cons, List.nodup_cons]
      exact ⟨hnotmem, hrest⟩
    · simp only [pyDictSet]
      rw [if_neg hk]
      simp only [List.map_cons, List.nodup_cons]
      refine ⟨?_, ih hrest⟩
      intro hmem
      rcases mem_keys_pyDictSet rest k v p.1 hmem with h1 | h1
      · exact hk h1
      · exact hnotmem h1

theorem activeCount_of_no_active (store : TicketStore) (uid : Nat)
    (h : (get_user_active_ticket store uid).isSome = false) :
    activeCount uid store.tickets = 0 := by
  unfold get_user_active_ticket at h
  cases hfind : store.tickets.find? fun t => t.user_id = uid ∧ t.status ≠ .done with
  | some b => rw [hfind] at h; simp at h
  | none =>
    unfold activeCount
    rw [List.countP_eq_zero]
    intro a ha
    exact List.find?_eq_none.mp hfind a ha

theorem activeCount_create_self (store store' : TicketStore) (uid : Nat)
    (text : String) (username : Option String) (t : Ticket)
    (h : create_ticket store uid text username = some (store', t)) :
    activeCount uid store'.tickets = 1 := by
  unfold create_ticket at h
  by_cases hact : (get_user_active_ticket store uid).isSome
  · simp [hact] at h
  · rw [Bool.not_eq_true] at hact
    simp only [hact, Bool.false_eq_true, if_false, Option.some.injEq, Prod.mk.injEq] at h
    obtain ⟨hs, _⟩ := h
    have h0 := activeCount_of_no_active store uid hact
    subst hs
    unfold activeCount at h0 ⊢
    rw [List.countP_append, h0]
    simp [List.countP_cons]

theorem activeCount_create_other (store store' : TicketStore) (uid u : Nat)
    (text : String) (username : Option String) (t : Ticket)
    (hne : u ≠ uid)
    (h : create_ticket store uid text username = some (store', t)) :
    activeCount u store'.tickets = activeCount u store.tickets := by
  unfold create_ticket at h
  by_cases hact : (get_user_active_ticket store uid).isSome
  · simp [hact] at h
  · rw [Bool.not_eq_true] at hact
    simp only [hact, Bool.false_eq_true, if_false, Option.some.injEq, Prod.mk.injEq] at h
    obtain ⟨hs, _⟩ := h
    subst hs
    unfold activeCount
    simp [List.countP_append, List.countP_cons, Ne.symm hne]

theorem activeCount_close_le (store store' : TicketStore) (tid : Nat) (t : Ticket)
    (u : Nat) (h : close_ticket store tid = some (store', t)) :
    activeCount u store'.tickets ≤ activeCount u store.tickets := by
  unfold close_ticket at h
  cases hfind : store.tickets.find? (fun x => x.tid = tid) with
  | none => rw [hfind] at h; cases h
  | some t0 =>
    rw [hfind] at h
    simp only [Option.some.injEq, Prod.mk.injEq] at h
    obtain ⟨hs, _⟩ := h
    subst hs
    unfold activeCount
    rw [List.countP_map]
    refine List.countP_mono_left ?_
    intro a _ hpa
    by_cases htid : a.tid = tid
    · exfalso
      simp only [Function.comp_apply, htid, if_true] at hpa
      simp at hpa
    · simpa [Function.comp_apply, htid] using hpa

theorem activeCount_take_le (store store' : TicketStore) (tid : Nat) (t : Ticket)
    (u : Nat) (hnd : (store.tickets.map Ticket.tid).Nodup)
    (h : take_ticket store tid = some (store', t)) :
    activeCount u store'.tickets ≤ activeCount u store.tickets := by
  unfold take_ticket at h
  cases hfind : store.tickets.find? (fun x => x.tid = tid) with
  | none => rw [hfind] at h; cases h
  | some t0 =>
    rw [hfind] at h
    have ht0mem : t0 ∈ store.tickets := List.mem_of_find?_eq_some hfind
    have ht0tid : t0.tid = tid := by simpa using List.find?_some hfind
    by_cases hnew : t0.status = .new
    · simp only [hnew, if_true, Option.some.injEq, Prod.mk.injEq] at h
      obtain ⟨hs, _⟩ := h
      subst hs
      unfold activeCount
      rw [List.countP_map]
      refine List.countP_mono_left ?_
      intro a hamem hpa
      by_cases htid : a.tid = tid
      · have haeq : a = t0 :=
          List.inj_on_of_nodup_map hnd hamem ht0mem (by rw [htid, ht0tid])
        subst haeq
        simp only [Function.comp_apply, htid, if_true] at hpa
        simp only [decide_eq_true_eq] at hpa ⊢
        simp at hpa
        exact ⟨hpa, by simp [hnew]⟩
      · simpa [Function.comp_apply, htid] using hpa
    · simp [hnew] at h

theorem activeCount_add_message_le (store store' : TicketStore) (tid : Nat)
    (sender text : String) (t : Ticket) (u : Nat)
    (hnd : (store.tickets.map Ticket.tid).Nodup)
    (h : add_message store tid sender text = some (store', t)) :
    activeCount u store'.tickets ≤ activeCount u store.tickets := by
  unfold add_message at h
  cases hfind : store.tickets.find? (fun x => x.tid = tid) with
  | none => rw [hfind] at h; cases h
  | some t0 =>
    rw [hfind] at h
    have ht0mem : t0 ∈ store.tickets := List.mem_of_find?_eq_some hfind
    have ht0tid : t0.tid = tid := by simpa using List.find?_some hfind
    simp only [Option.some.injEq, Prod.mk.injEq] at h
    obtain ⟨hs, _⟩ := h
    subst hs
    unfold activeCount
    rw [List.countP_map]
    refine List.countP_mono_left ?_
    intro a hamem hpa
    by_cases htid : a.tid = tid
    · have haeq : a = t0 :=
        List.inj_on_of_nodup_map hnd hamem ht0mem (by rw [htid, ht0tid])
      subst haeq
      simpa [Function.comp_apply, htid] using hpa
    · simpa [Function.comp_apply, htid] using hpa

theorem ticketsWF_create (store store' : TicketStore) (uid : Nat) (text : String)
    (username : Option String) (t : Ticket) (hwf : TicketsWF store)
    (h : create_ticket store uid text username = some (store', t)) :
    TicketsWF store' := by
  obtain ⟨hnd, hbound⟩ := hwf
  unfold create_ticket at h
  by_cases hact : (get_user_active_ticket store uid).isSome
  · simp [hact] at h
  · rw [Bool.not_eq_true] at hact
    simp only [hact, Bool.false_eq_true, if_false, Option.some.injEq, Prod.mk.injEq] at h
    obtain ⟨hs, _⟩ := h
    subst hs
    constructor
    · simp only [List.map_append, List.map_cons, List.map_nil]
      rw [List.nodup_append]
      refine ⟨hnd, List.nodup_singleton _, ?_⟩
      intro x hx hy
      simp only [List.mem_singleton] at hy
      rw [List.mem_map] at hx
      obtain ⟨a, ha, rfl⟩ := hx
      exact absurd hy (Nat.ne_of_lt (hbound a ha))
    · intro x hx
      rcases List.mem_append.mp hx with hl | hr
      · exact Nat.lt_succ_of_lt (hbound x hl)
      · simp only [List.mem_singleton] at hr
        subst hr
        exact Nat.lt_succ_self _

theorem ticketsWF_mapUpdate (store : TicketStore) (tid : Nat) (t' : Ticket)
    (ht' : t'.tid = tid) (hwf : TicketsWF store) :
    TicketsWF { store with
      tickets := store.tickets.map fun u => if u.tid = tid then t' else u } := by
  obtain ⟨hnd, hbound⟩ := hwf
  constructor
  · have hkeys : (store.tickets.map fun u => if u.tid = tid then t' else u).map Ticket.tid
        = store.tickets.map Ticket.tid := by
      rw [List.map_map]
      refine List.map_congr_left ?_
      intro a _
      by_cases h : a.tid = tid
      · simp [Function.comp, h, ht']
      · simp [Function.comp, h]
    simpa [hkeys] using hnd
  · intro x hx
    simp only at hx
    rw [List.mem_map] at hx
    obtain ⟨a, ha, rfl⟩ := hx
    by_cases h : a.tid = tid
    · simp only [h, if_true]
      have : t'.tid = a.tid := by rw [ht', h]
      simpa [this] using hbound a ha
    · simp only [h, if_false]
      exact hbound a ha

theorem ticketsWF_close (store store' : TicketStore) (tid : Nat) (t : Ticket)
    (hwf : TicketsWF store) (h : close_ticket store tid = some (store', t)) :
    TicketsWF store' := by
  unfold close_ticket at h
  cases hfind : store.tickets.find? (fun x => x.tid = tid) with
  | none => rw [hfind] at h; cases h
  | some t0 =>
    rw [hfind] at h
    have ht0tid : t0.tid = tid := by simpa using List.find?_some hfind
    simp only [Option.some.injEq, Prod.mk.injEq] at h
    obtain ⟨hs, _⟩ := h
    subst hs
    exact ticketsWF_mapUpdate store tid _ ht0tid hwf

theorem ticketsWF_take (store store' : TicketStore) (tid : Nat) (t : Ticket)
    (hwf : TicketsWF store) (h : take_ticket store tid = some (store', t)) :
    TicketsWF store' := by
  unfold take_ticket at h
  cases hfind : store.tickets.find? (fun x => x.tid = tid) with
  | none => rw [hfind] at h; cases h
  | some t0 =>
    rw [hfind] at h
    have ht0tid : t0.tid = tid := by simpa using List.find?_some hfind
    by_cases hnew : t0.status = .new
    · simp only [hnew, if_true, Option.some.injEq, Prod.mk.injEq] at h
      obtain ⟨hs, _⟩ := h
      subst hs
      exact ticketsWF_mapUpdate store tid _ ht0tid hwf
    · simp [hnew] at h

theorem ticketsWF_add_message (store store' : TicketStore) (tid : Nat)
    (sender text : String) (t : Ticket) (hwf : TicketsWF store)
    (h : add_message store tid sender text = some (store', t)) :
    TicketsWF store' := by
  unfold add_message at h
  cases hfind : store.tickets.find? (fun x => x.tid = tid) with
  | none => rw [hfind] at h; cases h
  | some t0 =>
    rw [hfind] at h
    have ht0tid : t0.tid = tid := by simpa using List.find?_some hfind
    simp only [Option.some.injEq, Prod.mk.injEq] at h
    obtain ⟨hs, _⟩ := h
    subst hs
    exact ticketsWF_mapUpdate store tid _ ht0tid hwf

theorem botInv_handle_question_text (ask_min_length : Nat) (s : BotState)
    (uid : Nat) (username : Option String) (st : Option String) (text : String)
    (h : BotInv s) :
    TicketsWF (handle_question_text ask_min_length s.store uid username st text).store ∧
    ∀ u, activeCount u
      (handle_question_text ask_min_length s.store uid username st text).store.tickets ≤ 1 := by
  obtain ⟨hwf, hcount⟩ := h
  unfold handle_question_text
  by_cases hlen : text.length < ask_min_length
  · simpa [hlen] using ⟨hwf, hcount⟩
  · simp only [hlen, if_false]
    cases hc : create_ticket s.store uid text username with
    | none => simpa using ⟨hwf, hcount⟩
    | some p =>
      obtain ⟨store', t⟩ := p
      simp only
      refine ⟨ticketsWF_create _ _ _ _ _ _ hwf hc, ?_⟩
      intro u
      by_cases hu : u = uid
      · subst hu
        rw [activeCount_create_self _ _ _ _ _ _ hc]
      · rw [activeCount_create_other _ _ _ _ _ _ _ hu hc]
        exact hcount u

theorem botInv_applyBotOp (ask_min_length : Nat) (s : BotState) (op : BotOp)
    (h : BotInv s) : BotInv (applyBotOp ask_min_length s op) := by
  obtain ⟨hwf, hcount⟩ := h
  cases op with
  | startQuestionCallback uid =>
    exact ⟨hwf, hcount⟩
  | askCommand uid =>
    simp only [applyBotOp]
    by_cases hact : (get_user_active_ticket s.store uid).isSome
    · simpa [hact] using ⟨hwf, hcount⟩
    · simpa [hact] using ⟨hwf, hcount⟩
  | submitText uid username text =>
    simp only [applyBotOp]
    cases hconv : s.conv uid with
    | some st =>
      by_cases hq : st = "awaiting_question"
      · subst hq
        simp only [if_pos rfl]
        exact botInv_handle_question_text ask_min_length s uid username _ text ⟨hwf, hcount⟩
      · simp only [if_neg hq]
        exact ⟨hwf, hcount⟩
    | none =>
      cases hact : get_user_active_ticket s.store uid with
      | none => exact ⟨hwf, hcount⟩
      | some t =>
        by_cases hla : t.last_actor = "user"
        · simp only [if_pos hla]
          exact ⟨hwf, hcount⟩
        · simp only [if_neg hla]
          cases ha : add_message s.store t.tid "user" text with
          | none => exact ⟨hwf, hcount⟩
          | some p =>
            obtain ⟨store', t'⟩ := p
            refine ⟨ticketsWF_add_message _ _ _ _ _ _ hwf ha, fun u => ?_⟩
            exact le_trans (activeCount_add_message_le _ _ _ _ _ _ _ hwf.1 ha) (hcount u)
  | takeOp tid =>
    simp only [applyBotOp]
    cases ht : take_ticket s.store tid with
    | none => exact ⟨hwf, hcount⟩
    | some p =>
      obtain ⟨store', t'⟩ := p
      refine ⟨ticketsWF_take _ _ _ _ hwf ht, fun u => ?_⟩
      exact le_trans (activeCount_take_le _ _ _ _ _ hwf.1 ht) (hcount u)
  | closeOp tid =>
    simp only [applyBotOp]
    cases hc : close_ticket s.store tid with
    | none => exact ⟨hwf, hcount⟩
    | some p =>
      obtain ⟨store', t'⟩ := p
      refine ⟨ticketsWF_close _ _ _ _ hwf hc, fun u => ?_⟩
      exact le_trans (activeCount_close_le _ _ _ _ _ hc) (hcount u)

theorem botInv_runBot (ask_min_length : Nat) (ops : List BotOp) (s : BotState)
    (h : BotInv s) : BotInv (runBot ask_min_length s ops) := by
  induction ops generalizing s with
  | nil => exact h
  | cons op rest ih => exact ih _ (botInv_applyBotOp ask_min_length s op h)

theorem botInv_init : BotInv initBot := by
  constructor
  · exact ⟨List.nodup_nil, by intro t ht; cases ht⟩
  · intro u
    simp [initBot, activeCount]

/-- C2 (counterexample): the claim "after each run `next_run` is set to
`now + interval` measured from that run's start — never earlier" is false.
In a tick scanned at time 100, job "b"'s body starts at time 105 (after job
"a"'s 5-second failing run), yet its `next_run` becomes `110 = 100 + 10`,
computed from the stale `now` sample — earlier than the run's start plus the
interval (`115`). -/
theorem scheduler_fixed_delay_counterexample :
    ((runTick 100 c2Beh c2Jobs).2 = [("a", 100, false), ("b", 105, true)]) ∧
    ((runTick 100 c2Beh c2Jobs).1 =
      [("a", ⟨10, none, 110⟩), ("b", ⟨10, some 100, 110⟩)]) ∧
    ¬ (∀ (now : Nat) (beh : String → Nat × Bool) (jobs : List (String × Job))
        (jid : String) (st : Nat) (ok : Bool) (j' : Job),
        (jid, st, ok) ∈ (runTick now beh jobs).2 →
        (jid, j') ∈ (runTick now beh jobs).1 →
        j'.next_run = st + j'.interval) := by
  refine ⟨by decide, by decide, ?_⟩
  intro hcl
  have hlog : (("b" : String), (105 : Nat), true) ∈ (runTick 100 c2Beh c2Jobs).2 := by
    decide
  have hjob : (("b" : String), (⟨10, some 100, 110⟩ : Job)) ∈ (runTick 100 c2Beh c2Jobs).1 := by
    decide
  have := hcl 100 c2Beh c2Jobs "b" 105 true ⟨10, some 100, 110⟩ hlog hjob
  simp at this

/-- C2 (amended): after each run, success or failure alike, the job's
`next_run` is set to `tickNow + interval`, where `tickNow` is the single
`datetime.now()` sample taken at the top of that tick's scan — it is never
computed from the previous `next_run`, it lies strictly in the future of
`tickNow` whenever the interval is positive, and for the *first* due job of
the tick (whose body starts right at the sample) it equals that run's start
plus the interval; for later due jobs of the same tick it can be earlier
than run start + interval. -/
theorem scheduler_fixed_delay_amended (now : Nat) (beh : String → Nat × Bool)
    (jobs : List (String × Job)) (jid : String) (j : Job)
    (hmem : (jid, j) ∈ jobs) (hdue : j.next_run ≤ now) :
    (∃ j', (jid, j') ∈ (runTick now beh jobs).1 ∧
      j'.next_run = now + j.interval ∧ j'.interval = j.interval) ∧
    (∀ pre post, jobs = pre ++ (jid, j) :: post →
      (∀ p ∈ pre, ¬ p.2.next_run ≤ now) →
      ∃ rest, (runTick now beh jobs).2 = (jid, now, (beh jid).2) :: rest) ∧
    (0 < j.interval → now < now + j.interval) := by
  refine ⟨?_, ?_, fun h => Nat.lt_add_of_pos_right h⟩
  · by_cases hok : (beh jid).2
    · refine ⟨{ j with last_run := some now, next_run := now + j.interval }, ?_, rfl, rfl⟩
      rw [runTick, runJobs_fst]
      have hm := List.mem_map_of_mem (tickUpdate now beh) hmem
      simpa [tickUpdate, hdue, hok] using hm
    · refine ⟨{ j with next_run := now + j.interval }, ?_, rfl, rfl⟩
      rw [runTick, runJobs_fst]
      have hm := List.mem_map_of_mem (tickUpdate now beh) hmem
      simpa [tickUpdate, hdue, hok] using hm
  · intro pre post heq hpre
    subst heq
    exact runJobs_first_due now beh pre jid j post hpre hdue

/-- Witness for the amended C2 at the concrete tick of the counterexample:
the failing first job "a" is rescheduled to `100 + 10` and, being the first
due job, ran exactly at the `now` sample. -/
theorem scheduler_fixed_delay_amended_witness :
    (∃ j', ("a", j') ∈ (runTick 100 c2Beh c2Jobs).1 ∧
      j'.next_run = 100 + 10 ∧ j'.interval = 10) ∧
    (∃ rest, (runTick 100 c2Beh c2Jobs).2 = ("a", 100, (c2Beh "a").2) :: rest) := by
  have h := scheduler_fixed_delay_amended 100 c2Beh c2Jobs "a" ⟨10, none, 100⟩
    (by decide) (by decide)
  exact ⟨h.1, h.2.1 [] [("b", ⟨10, none, 100⟩)] (by decide) (by decide)⟩

/-- C4: `stop()` clears the running flag; the cancellation it delivers and
awaits runs no job body (`executed` is unchanged when `stop` returns), it
leaves the loop task finished with the task list cleared, and from the
stopped state no continuation of the loop-task activity ever executes a job
(the execution log never grows along any `LoopStep` trace). -/
theorem stop_quiescent (s x : SchedulerService) :
    (schedStop s).running = false ∧
    (schedStop s).executed = s.executed ∧
    (s.running = true → (schedStop s).phase = .finished ∧ (schedStop s).tasks = 0) ∧
    (Relation.ReflTransGen LoopStep (schedStop s) x → x.executed = s.executed) := by
  have hrun : (schedStop s).running = false := by
    unfold schedStop
    by_cases h : s.running = false <;> simp [h]
  have hexec : (schedStop s).executed = s.executed := by
    unfold schedStop
    by_cases h : s.running = false <;> simp [h]
  refine ⟨hrun, hexec, ?_, ?_⟩
  · intro h
    unfold schedStop
    simp [h]
  · intro htr
    rw [← hexec]
    exact (executed_frozen_of_not_running _ x hrun htr).1

/-- Witness for C4 at a concrete running scheduler: after `stop`, the flag
is down, the task is finished, and the log of executed jobs is exactly what
it was (the empty trace instantiates the trace hypothesis). -/
theorem stop_quiescent_witness :
    (schedStop ⟨true, [("backup", ⟨86400, none, 0⟩)], 1, .sleeping, ["backup"]⟩).running
      = false ∧
    (schedStop ⟨true, [("backup", ⟨86400, none, 0⟩)], 1, .sleeping, ["backup"]⟩).phase
      = .finished ∧
    (schedStop ⟨true, [("backup", ⟨86400, none, 0⟩)], 1, .sleeping, ["backup"]⟩).executed
      = ["backup"] := by
  have h := stop_quiescent ⟨true, [("backup", ⟨86400, none, 0⟩)], 1, .sleeping, ["backup"]⟩
    (schedStop ⟨true, [("backup", ⟨86400, none, 0⟩)], 1, .sleeping, ["backup"]⟩)
  exact ⟨h.1, (h.2.2.1 rfl).1, h.2.2.2 Relation.ReflTransGen.refl⟩

/-- C5: when one job's body raises during a tick, the per-job
`except Exception` contains the failure: every due job of that tick still
executes (it appears in the run log with its own outcome), the failing job
is rescheduled at `now + interval` like a successful one, and the loop keeps
running — the tick returns with the flag still up and the task back at its
sleep, whatever the job outcomes were. -/
theorem scheduler_failure_isolated (now : Nat) (beh : String → Nat × Bool)
    (jobs : List (String × Job)) (fid : String) (fj : Job) (oid : String) (oj : Job)
    (hfmem : (fid, fj) ∈ jobs) (hfdue : fj.next_run ≤ now)
    (hfail : (beh fid).2 = false)
    (homem : (oid, oj) ∈ jobs) (hodue : oj.next_run ≤ now) :
    (∃ st, (oid, st, (beh oid).2) ∈ (runTick now beh jobs).2) ∧
    ((fid, { fj with next_run := now + fj.interval }) ∈ (runTick now beh jobs).1) ∧
    (∀ s : SchedulerService, s.running = true → s.phase = .sleeping →
      (tick s now beh).running = true ∧ (tick s now beh).phase = .sleeping) := by
  refine ⟨runJobs_mem_log now beh oid oj now jobs homem hodue, ?_, ?_⟩
  · rw [runTick, runJobs_fst]
    have hm := List.mem_map_of_mem (tickUpdate now beh) hfmem
    simpa [tickUpdate, hfdue, hfail] using hm
  · intro s hr hp
    constructor
    · simp [tick, hr]
    · simp [tick, hr, hp]

/-- Witness for C5 at a concrete tick: job "x" raises, job "y" still runs and
"x" is rescheduled 10 seconds after the scan time. -/
theorem scheduler_failure_isolated_witness :
    (∃ st, (("y" : String), st, (c5Beh "y").2) ∈ (runTick 0 c5Beh c5Jobs).2) ∧
    ((("x" : String), (⟨10, none, 0 + 10⟩ : Job)) ∈ (runTick 0 c5Beh c5Jobs).1) := by
  have h := scheduler_failure_isolated 0 c5Beh c5Jobs "x" ⟨10, none, 0⟩ "y" ⟨7, none, 0⟩
    (by decide) (by decide) (by decide) (by decide) (by decide)
  exact ⟨h.1, h.2.1⟩

/-- C10: calling `start()` while the running flag is up returns without
creating a task or mutating anything, and along every operation sequence
from a fresh service at most one loop task exists. -/
theorem start_guard_single_task :
    (∀ s : SchedulerService, s.running = true → schedStart s = s) ∧
    (∀ ops : List SchedOp, (runSchedOps initScheduler ops).tasks ≤ 1) := by
  constructor
  · intro s h
    unfold schedStart
    simp [h]
  · intro ops
    have h := taskInv_runSchedOps ops initScheduler (by simp [TaskInv, initScheduler])
    unfold TaskInv at h
    rw [h]
    by_cases hr : (runSchedOps initScheduler ops).running = true <;> simp [hr]

/-- Witness for C10: a running service is returned unchanged by `start`, and
a double `start` still leaves a single task. -/
theorem start_guard_single_task_witness :
    schedStart ⟨true, [], 1, .sleeping, []⟩ = ⟨true, [], 1, .sleeping, []⟩ ∧
    (runSchedOps initScheduler [.startOp, .startOp]).tasks ≤ 1 :=
  ⟨start_guard_single_task.1 ⟨true, [], 1, .sleeping, []⟩ rfl,
   start_guard_single_task.2 [.startOp, .startOp]⟩

/-- C3: with the cooldown enabled, `check_cooldown` allows a submission with
no prior record; with a prior record it allows exactly when
`elapsed ≥ window` and otherwise denies with remaining hours
`⌈(window − elapsed) / 3600⌉`; at a 1-hour window, `elapsed = 3599` gives
`(false, remaining = 1)` and `elapsed = 3600` gives `(true, none)`. -/
theorem cooldown_check_correct :
    (∀ (enabled : Bool) (hours : Nat) (svc : FeedbackService) (uid : Nat)
      (ft : String) (now : Int),
      svc.last_feedback.lookup (uid, ft) = none →
      check_cooldown enabled hours svc uid ft now = (true, none)) ∧
    (∀ (hours : Nat) (svc : FeedbackService) (uid : Nat) (ft : String)
      (now last : Int),
      svc.last_feedback.lookup (uid, ft) = some last →
      (hours : Int) * 3600 ≤ now - last →
      check_cooldown true hours svc uid ft now = (true, none)) ∧
    (∀ (hours : Nat) (svc : FeedbackService) (uid : Nat) (ft : String)
      (now last : Int),
      svc.last_feedback.lookup (uid, ft) = some last →
      now - last < (hours : Int) * 3600 →
      check_cooldown true hours svc uid ft now
        = (false, some ⌈((((hours : Int) * 3600 - (now - last) : Int)) : ℚ) / 3600⌉)) ∧
    (check_cooldown true 1 ⟨[((9, "review"), 0)]⟩ 9 "review" 3599 = (false, some 1) ∧
     check_cooldown true 1 ⟨[((9, "review"), 0)]⟩ 9 "review" 3600 = (true, none)) := by
  refine ⟨?_, ?_, ?_, by decide, by decide⟩
  · intro enabled hours svc uid ft now hlook
    unfold check_cooldown
    cases enabled with
    | false => simp
    | true => simp [hlook]
  · intro hours svc uid ft now last hlook hle
    unfold check_cooldown
    simp [hlook, hle]
  · intro hours svc uid ft now last hlook hlt
    unfold check_cooldown
    rw [← fdiv_add_3599_eq_ceil]
    simp only [hlook]
    simp [not_le.mpr hlt, le_of_lt hlt]

/-- Witness for C3: a record at time 0 with a 2-hour window, checked at 5400
seconds, denies with 1 hour remaining (`⌈1800 / 3600⌉`); with no record the
check allows. -/
theorem cooldown_check_correct_witness :
    check_cooldown true 2 ⟨[((4, "suggestion"), 0)]⟩ 4 "suggestion" 5400
      = (false, some ⌈(((2 : Int) * 3600 - (5400 - 0) : Int) : ℚ) / 3600⌉) ∧
    check_cooldown true 2 ⟨[]⟩ 4 "suggestion" 5400 = (true, none) := by
  constructor
  · exact cooldown_check_correct.2.2.1 2 ⟨[((4, "suggestion"), 0)]⟩ 4 "suggestion"
      5400 0 (by decide) (by decide)
  · exact cooldown_check_correct.1 true 2 ⟨[]⟩ 4 "suggestion" 5400 (by decide)

/-- C6: in the `awaiting_ban_reason` branch, a target that is already banned
with `reason1` keeps `reason1` when the admin submits `reason2`: the stored
bans are untouched, `ban_user` is not invoked, the reported reason is
`reason1` (not `reason2`), and the conversation state returns to idle. -/
theorem reban_guard (bans : List (Nat × String)) (uid : Nat)
    (reason1 text2 : String) (h : bans.lookup uid = some reason1) :
    (admin_ban_reason_step bans (some uid) text2).bans = bans ∧
    (admin_ban_reason_step bans (some uid) text2).bans.lookup uid = some reason1 ∧
    (admin_ban_reason_step bans (some uid) text2).ban_invoked = false ∧
    (admin_ban_reason_step bans (some uid) text2).reply = .alreadyBanned uid reason1 ∧
    (admin_ban_reason_step bans (some uid) text2).state = none := by
  unfold admin_ban_reason_step findBanReason
  simp [h]

/-- Witness for C6: user 5 banned as "spam"; submitting "flood" afterwards
keeps and reports "spam". -/
theorem reban_guard_witness :
    (admin_ban_reason_step [(5, "spam")] (some 5) "flood").bans = [(5, "spam")] ∧
    (admin_ban_reason_step [(5, "spam")] (some 5) "flood").bans.lookup 5 = some "spam" ∧
    (admin_ban_reason_step [(5, "spam")] (some 5) "flood").ban_invoked = false ∧
    (admin_ban_reason_step [(5, "spam")] (some 5) "flood").reply
      = .alreadyBanned 5 "spam" ∧
    (admin_ban_reason_step [(5, "spam")] (some 5) "flood").state = none :=
  reban_guard [(5, "spam")] 5 "spam" "flood" (by decide)

/-- C7: a question text shorter than `ASK_MIN_LENGTH` submitted in the
`awaiting_question` state creates no ticket (`create_ticket` is never
invoked), leaves the state at `awaiting_question`, and re-prompts the user
with the `messages.min_length` message. -/
theorem short_question_rejected (ask_min_length : Nat) (store : TicketStore)
    (uid : Nat) (username : Option String) (text : String)
    (h : text.length < ask_min_length) :
    handle_question_text ask_min_length store uid username
        (some "awaiting_question") text
      = { store := store, state := some "awaiting_question",
          reply := some .minLength, creation_attempted := false, raised := false } := by
  unfold handle_question_text
  simp [h]

/-- Witness for C7: "hi" against a minimum of 20 characters. -/
theorem short_question_rejected_witness :
    handle_question_text 20 ⟨[], 0⟩ 3 none (some "awaiting_question") "hi"
      = { store := ⟨[], 0⟩, state := some "awaiting_question",
          reply := some .minLength, creation_attempted := false, raised := false } :=
  short_question_rejected 20 ⟨[], 0⟩ 3 none "hi" (by decide)

/-- C1: along every sequence of question-submission, ticket-creation and
close operations (plus the take and message-append operations reachable from
the same handlers), every user holds at most one ticket with status ≠
`done`; and in particular a question submitted in the `awaiting_question`
state by a user who already holds an active ticket leaves the store exactly
as it was — the `AlreadyActive` guard of `create_ticket` refuses the second
ticket. -/
theorem single_active_ticket_invariant :
    (∀ (ask_min_length : Nat) (ops : List BotOp) (uid : Nat),
      activeCount uid (runBot ask_min_length initBot ops).store.tickets ≤ 1) ∧
    (∀ (ask_min_length : Nat) (store : TicketStore) (uid : Nat)
      (username : Option String) (st : Option String) (text : String),
      (get_user_active_ticket store uid).isSome = true →
      (handle_question_text ask_min_length store uid username st text).store
        = store) := by
  constructor
  · intro minLen ops uid
    exact (botInv_runBot minLen ops initBot botInv_init).2 uid
  · intro minLen store uid username st text hact
    unfold handle_question_text
    by_cases hlen : text.length < minLen
    · simp [hlen]
    · unfold create_ticket
      simp [hlen, hact]

/-- Witness for C1: a user who asks, submits a valid question, then presses
the `user_start_question` button again and submits a second question, ends
with a single active ticket; and a direct `handle_question_text` call
against a store where user 7 already has an active ticket leaves that store
unchanged. -/
theorem single_active_ticket_invariant_witness :
    activeCount 7
      (runBot 5 initBot
        [.askCommand 7, .submitText 7 none "hello there",
         .startQuestionCallback 7,
         .submitText 7 none "one more question"]).store.tickets ≤ 1 ∧
    (handle_question_text 5 ⟨[⟨0, 7, none, .new, [("user", "hi")], "user"⟩], 1⟩
        7 none (some "awaiting_question") "long enough").store
      = ⟨[⟨0, 7, none, .new, [("user", "hi")], "user"⟩], 1⟩ :=
  ⟨single_active_ticket_invariant.1 5
      [.askCommand 7, .submitText 7 none "hello there",
       .startQuestionCallback 7, .submitText 7 none "one more question"] 7,
   single_active_ticket_invariant.2 5
      ⟨[⟨0, 7, none, .new, [("user", "hi")], "user"⟩], 1⟩ 7 none
      (some "awaiting_question") "long enough" (by decide)⟩

/-- C8 (counterexample): the claim that a "content unchanged" edit outcome is
treated as success (no fallback, stored id kept) is false: the code's
`except Exception` catches `BadRequest("Message is not modified")` like any
other failure, sends a brand-new message and overwrites the stored id with
the new one. -/
theorem render_content_unchanged_counterexample :
    send_or_update_ticket_card true [(1, 10)] 1 (some 10) .notModified (.sent 11)
      = { cards := [(1, 11)], editAttempted := true, sendAttempted := true,
          succeeded := true } ∧
    ¬ (∀ (cards : List (Nat × Nat)) (tid m : Nat) (send : SendOutcome),
        (send_or_update_ticket_card true cards tid (some m) .notModified send).sendAttempted
            = false ∧
        (send_or_update_ticket_card true cards tid (some m) .notModified send).cards
            = pyDictSet cards tid m) := by
  refine ⟨by decide, ?_⟩
  intro hcl
  have h := (hcl [(1, 10)] 1 10 (.sent 11)).1
  have h2 : (send_or_update_ticket_card true [(1, 10)] 1 (some 10) .notModified
      (.sent 11)).sendAttempted = true := by decide
  rw [h2] at h
  cases h

/-- C8 (amended): with a stored id the renderer always attempts the edit
first; a successful edit re-stores that id and sends nothing; EVERY edit
exception — the "content unchanged" outcome included — triggers the
send-new fallback; a successful send overwrites the stored id with the new
message id; a failed send leaves the map untouched and the render
unsuccessful; and every successful render leaves exactly one tracked id for
the key, updated before returning. -/
theorem render_fallback_amended (cards : List (Nat × Nat)) (tid : Nat)
    (mid : Option Nat) (edit : EditOutcome) (send : SendOutcome) :
    ((send_or_update_ticket_card true cards tid mid edit send).editAttempted
        = mid.isSome) ∧
    (∀ m, mid = some m → edit = .ok →
      (send_or_update_ticket_card true cards tid mid edit send).sendAttempted = false ∧
      (send_or_update_ticket_card true cards tid mid edit send).succeeded = true ∧
      (send_or_update_ticket_card true cards tid mid edit send).cards
        = pyDictSet cards tid m) ∧
    (∀ m, mid = some m → edit ≠ .ok →
      (send_or_update_ticket_card true cards tid mid edit send).sendAttempted = true) ∧
    (∀ n, send = .sent n → (mid = none ∨ edit ≠ .ok) →
      (send_or_update_ticket_card true cards tid mid edit send).cards
          = pyDictSet cards tid n ∧
      (send_or_update_ticket_card true cards tid mid edit send).succeeded = true) ∧
    (send = .failed → (mid = none ∨ edit ≠ .ok) →
      (send_or_update_ticket_card true cards tid mid edit send).cards = cards ∧
      (send_or_update_ticket_card true cards tid mid edit send).succeeded = false) ∧
    ((send_or_update_ticket_card true cards tid mid edit send).succeeded = true →
      ∃ m, (send_or_update_ticket_card true cards tid mid edit send).cards.lookup tid
        = some m) ∧
    (NodupKeys cards →
      NodupKeys (send_or_update_ticket_card true cards tid mid edit send).cards) := by
  cases mid with
  | none =>
    cases send with
    | sent n =>
      refine ⟨by simp [send_or_update_ticket_card], by simp, by simp, ?_, ?_, ?_, ?_⟩
      · intro k hk _
        cases hk
        exact ⟨by simp [send_or_update_ticket_card], by simp [send_or_update_ticket_card]⟩
      · intro hk
        cases hk
      · intro _
        exact ⟨n, by simp [send_or_update_ticket_card, lookup_pyDictSet]⟩
      · intro hnd
        simpa [send_or_update_ticket_card] using nodupKeys_pyDictSet cards tid n hnd
    | failed =>
      refine ⟨by simp [send_or_update_ticket_card], by simp, by simp, ?_, ?_, ?_, ?_⟩
      · intro k hk
        cases hk
      · intro _ _
        exact ⟨by simp [send_or_update_ticket_card], by simp [send_or_update_ticket_card]⟩
      · intro hsucc
        simp [send_or_update_ticket_card] at hsucc
      · intro hnd
        simpa [send_or_update_ticket_card] using hnd
  | some m0 =>
    cases edit with
    | ok =>
      refine ⟨by simp [send_or_update_ticket_card], ?_, ?_, ?_, ?_, ?_, ?_⟩
      · intro k hk _
        obtain rfl : m0 = k := by injection hk
        exact ⟨by simp [send_or_update_ticket_card],
          by simp [send_or_update_ticket_card],
          by simp [send_or_update_ticket_card]⟩
      · intro k _ hne
        exact absurd rfl hne
      · intro n _ hor
        rcases hor with h | h
        · cases h
        · exact absurd rfl h
      · intro _ hor
        rcases hor with h | h
        · cases h
        · exact absurd rfl h
      · intro _
        exact ⟨m0, by simp [send_or_update_ticket_card, lookup_pyDictSet]⟩
      · intro hnd
        simpa [send_or_update_ticket_card] using nodupKeys_pyDictSet cards tid m0 hnd
    | notModified =>
      cases send with
      | sent n =>
        refine ⟨by simp [send_or_update_ticket_card], ?_, ?_, ?_, ?_, ?_, ?_⟩
        · intro k _ hok
          cases hok
        · intro k _ _
          simp [send_or_update_ticket_card]
        · intro k hk _
          cases hk
          exact ⟨by simp [send_or_update_ticket_card], by simp [send_or_update_ticket_card]⟩
        · intro hk
          cases hk
        · intro _
          exact ⟨n, by simp [send_or_update_ticket_card, lookup_pyDictSet]⟩
        · intro hnd
          simpa [send_or_update_ticket_card] using nodupKeys_pyDictSet cards tid n hnd
      | failed =>
        refine ⟨by simp [send_or_update_ticket_card], ?_, ?_, ?_, ?_, ?_, ?_⟩
        · intro k _ hok
          cases hok
        · intro k _ _
          simp [send_or_update_ticket_card]
        · intro k hk
          cases hk
        · intro _ _
          exact ⟨by simp [send_or_update_ticket_card], by simp [send_or_update_ticket_card]⟩
        · intro hsucc
          simp [send_or_update_ticket_card] at hsucc
        · intro hnd
          simpa [send_or_update_ticket_card] using hnd
    | failed =>
      cases send with
      | sent n =>
        refine ⟨by simp [send_or_update_ticket_card], ?_, ?_, ?_, ?_, ?_, ?_⟩
        · intro k _ hok
          cases hok
        · intro k _ _
          simp [send_or_update_ticket_card]
        · intro k hk _
          cases hk
          exact ⟨by simp [send_or_update_ticket_card], by simp [send_or_update_ticket_card]⟩
        · intro hk
          cases hk
        · intro _
          exact ⟨n, by simp [send_or_update_ticket_card, lookup_pyDictSet]⟩
        · intro hnd
          simpa [send_or_update_ticket_card] using nodupKeys_pyDictSet cards tid n hnd
      | failed =>
        refine ⟨by simp [send_or_update_ticket_card], ?_, ?_, ?_, ?_, ?_, ?_⟩
        · intro k _ hok
          cases hok
        · intro k _ _
          simp [send_or_update_ticket_card]
        · intro k hk
          cases hk
        · intro _ _
          exact ⟨by simp [send_or_update_ticket_card], by simp [send_or_update_ticket_card]⟩
        · intro hsucc
          simp [send_or_update_ticket_card] at hsucc
        · intro hnd
          simpa [send_or_update_ticket_card] using hnd

/-- Witness for the amended C8: on the "content unchanged" edit at ticket 1
with stored id 10, the fallback sends message 11 and the map tracks 11. -/
theorem render_fallback_amended_witness :
    (send_or_update_ticket_card true [(1, 10)] 1 (some 10) .notModified
        (.sent 11)).sendAttempted = true ∧
    (send_or_update_ticket_card true [(1, 10)] 1 (some 10) .notModified
        (.sent 11)).cards = pyDictSet [(1, 10)] 1 11 := by
  have h := render_fallback_amended [(1, 10)] 1 (some 10) .notModified (.sent 11)
  exact ⟨h.2.2.1 10 rfl (by decide), (h.2.2.2.1 11 rfl (Or.inr (by decide))).1⟩

/-- Adding or removing a `user_id` keyword argument never changes the
formatting stage: it is filtered out of `format_kwargs`, and the
`if kwargs:` / `if format_kwargs:` branches collapse to the same result. -/
theorem applyKwargs_user_id (v : LocaleVal) (pv : PyVal)
    (kwargs : List (String × PyVal)) :
    applyKwargs v (("user_id", pv) :: kwargs) = applyKwargs v kwargs := by
  have hfil : format_kwargs (("user_id", pv) :: kwargs) = format_kwargs kwargs := by
    simp [format_kwargs]
  unfold applyKwargs
  rw [hfil]
  by_cases hk : kwargs = []
  · subst hk
    simp [format_kwargs]
  · simp [hk]

/-- C9 (counterexample): `get_text` is not total.  Formatting the template
`"\x7b0\x7d"` with a keyword argument raises `IndexError`, which neither the
inner `except (KeyError, ValueError)` nor the outer
`except (KeyError, AttributeError, TypeError)` catches; and a key naming a
nested section with no keyword arguments returns the section dict itself,
not a string. -/
theorem get_text_total_counterexample :
    (get_text c9Locales "greet" none none [("name", .strV "x")]
      = .raised .indexError) ∧
    (get_text c9Locales "messages" none none [] = .nonStr) ∧
    ¬ (∀ (st : LocalesState) (key : String) (lang locale : Option String)
        (kwargs : List (String × PyVal)),
        ∃ s, get_text st key lang locale kwargs = .str s) := by
  have h1 : get_text c9Locales "greet" none none [("name", .strV "x")]
      = .raised .indexError := by rfl
  refine ⟨h1, by rfl, ?_⟩
  intro hcl
  obtain ⟨s, hs⟩ := hcl c9Locales "greet" none none [("name", .strV "x")]
  rw [h1] at hs
  simp at hs

/-- C9 (amended): `get_text` returns a string and never raises **except** in
two situations the code does not handle: a template containing a positional
replacement field formatted with at least one non-`user_id` keyword argument
raises `IndexError`, and a key resolving to a nested section with no
non-`user_id` keyword arguments returns the section object itself.  In every
other case it returns a string: an unset locale or failed lookup yields
`""`, a missing named parameter (`KeyError`) or invalid format spec
(`ValueError`) yields the unformatted template text, and `user_id` is
excluded from formatting (it only selects the per-user locale). -/
theorem get_text_amended (st : LocalesState) (key : String)
    (lang locale : Option String) (kwargs : List (String × PyVal)) :
    (effectiveLocale st lang locale kwargs = none →
      get_text st key lang locale kwargs = .str "") ∧
    (∀ cur, effectiveLocale st lang locale kwargs = some cur → cur ≠ "" →
      ∀ e, lookupValue st cur key = .error e →
      get_text st key lang locale kwargs = .str "") ∧
    (∀ cur t, effectiveLocale st lang locale kwargs = some cur → cur ≠ "" →
      lookupValue st cur key = .ok (.strV t) → hasPositional t = false →
      ∃ s, get_text st key lang locale kwargs = .str s) ∧
    (∀ cur t e, effectiveLocale st lang locale kwargs = some cur → cur ≠ "" →
      lookupValue st cur key = .ok (.strV t) →
      format_kwargs kwargs ≠ [] →
      formatTemplate t (format_kwargs kwargs) = .error e →
      (e = .keyError ∨ e = .valueError) →
      get_text st key lang locale kwargs = .str t.raw) ∧
    (∀ v, truthyS locale = true →
      get_text st key lang locale (("user_id", v) :: kwargs)
        = get_text st key lang locale kwargs) ∧
    (∀ e, get_text st key lang locale kwargs = .raised e → e = .indexError) ∧
    (get_text st key lang locale kwargs = .nonStr →
      ∃ cur es, effectiveLocale st lang locale kwargs = some cur ∧ cur ≠ "" ∧
        lookupValue st cur key = .ok (.node es) ∧ format_kwargs kwargs = []) := by
  refine ⟨?_, ?_, ?_, ?_, ?_, ?_, ?_⟩
  · intro h
    unfold get_text
    rw [h]
  · intro cur hcur hne e herr
    unfold get_text
    simp only [hcur]
    rw [if_neg hne]
    simp only [herr]
  · intro cur t hcur hne hok hpos
    unfold get_text
    simp only [hcur]
    rw [if_neg hne]
    simp only [hok]
    unfold applyKwargs
    by_cases hk : kwargs = []
    · rw [if_pos hk]
      exact ⟨t.raw, rfl⟩
    · rw [if_neg hk]
      by_cases hfk : format_kwargs kwargs = []
      · rw [if_pos hfk]
        exact ⟨t.raw, rfl⟩
      · rw [if_neg hfk]
        cases hft : formatTemplate t (format_kwargs kwargs) with
        | ok s => exact ⟨s, by simp only [hft]⟩
        | error fe =>
          cases fe with
          | keyError => exact ⟨t.raw, by simp only [hft]⟩
          | valueError => exact ⟨t.raw, by simp only [hft]⟩
          | indexError =>
            exact absurd (formatTemplate_indexError_hasPositional t _ hft)
              (by rw [hpos]; exact Bool.false_ne_true)
          | attributeError => exact ⟨"", by simp only [hft]⟩
          | typeError => exact ⟨"", by simp only [hft]⟩
  · intro cur t e hcur hne hok hfk hft hke
    unfold get_text
    simp only [hcur]
    rw [if_neg hne]
    simp only [hok]
    unfold applyKwargs
    have hk : kwargs ≠ [] := by
      intro h
      exact hfk (by simp [format_kwargs, h])
    rw [if_neg hk, if_neg hfk]
    simp only [hft]
    rcases hke with rfl | rfl <;> rfl
  · intro v htr
    have heff : ∀ kw : List (String × PyVal),
        effectiveLocale st lang locale kw = locale := by
      intro kw
      unfold effectiveLocale
      simp [htr]
    unfold get_text
    rw [heff (("user_id", v) :: kwargs), heff kwargs]
    cases locale with
    | none => simp [truthyS] at htr
    | some l =>
      simp only
      by_cases hl : l = ""
      · simp [hl]
      · rw [if_neg hl, if_neg hl]
        cases hlv : lookupValue st l key with
        | error e => simp only [hlv]
        | ok v2 =>
          simp only [hlv]
          exact applyKwargs_user_id v2 v kwargs
  · intro e h
    unfold get_text at h
    cases heff : effectiveLocale st lang locale kwargs with
    | none => simp only [heff] at h; simp at h
    | some cur =>
      simp only [heff] at h
      by_cases hc : cur = ""
      · rw [if_pos hc] at h
        simp at h
      · rw [if_neg hc] at h
        cases hlv : lookupValue st cur key with
        | error e2 => simp only [hlv] at h; simp at h
        | ok v =>
          simp only [hlv] at h
          unfold applyKwargs at h
          by_cases hk : kwargs = []
          · rw [if_pos hk] at h
            cases v <;> simp at h
          · rw [if_neg hk] at h
            by_cases hfk : format_kwargs kwargs = []
            · rw [if_pos hfk] at h
              cases v <;> simp at h
            · rw [if_neg hfk] at h
              cases v with
              | node es => simp at h
              | strV t =>
                cases hft : formatTemplate t (format_kwargs kwargs) with
                | ok s => simp only [hft] at h; simp at h
                | error fe =>
                  simp only [hft] at h
                  cases fe with
                  | keyError => simp at h
                  | valueError => simp at h
                  | indexError =>
                    injection h with h2
                    exact h2.symm
                  | attributeError => simp at h
                  | typeError => simp at h
  · intro h
    unfold get_text at h
    cases heff : effectiveLocale st lang locale kwargs with
    | none => simp only [heff] at h; simp at h
    | some cur =>
      simp only [heff] at h
      by_cases hc : cur = ""
      · rw [if_pos hc] at h
        simp at h
      · rw [if_neg hc] at h
        cases hlv : lookupValue st cur key with
        | error e2 => simp only [hlv] at h; simp at h
        | ok v =>
          simp only [hlv] at h
          unfold applyKwargs at h
          by_cases hk : kwargs = []
          · rw [if_pos hk] at h
            cases v with
            | strV t => simp at h
            | node es =>
              exact ⟨cur, es, rfl, hc, hlv, by simp [format_kwargs, hk]⟩
          · rw [if_neg hk] at h
            by_cases hfk : format_kwargs kwargs = []
            · rw [if_pos hfk] at h
              cases v with
              | strV t => simp at h
              | node es => exact ⟨cur, es, rfl, hc, hlv, hfk⟩
            · rw [if_neg hfk] at h
              cases v with
              | node es => simp at h
              | strV t =>
                cases hft : formatTemplate t (format_kwargs kwargs) with
                | ok s => simp only [hft] at h; simp at h
                | error fe =>
                  simp only [hft] at h
                  cases fe <;> simp at h

/-- Witness for the amended C9: on the counterexample's locale data, the
positional-free leaf `messages.welcome` renders to a string, and an unknown
key gives the empty string. -/
theorem get_text_amended_witness :
    (∃ s, get_text c9Locales "messages.welcome" none none [] = .str s) ∧
    get_text c9Locales "missing.key" none none [] = .str "" := by
  constructor
  · exact (get_text_amended c9Locales "messages.welcome" none none []).2.2.1
      "en" [.lit "hi"] (by rfl) (by decide) (by rfl) (by rfl)
  · exact (get_text_amended c9Locales "missing.key" none none []).2.1
      "en" (by rfl) (by decide) .keyError (by rfl)

end BotSupport

